import Mathlib

/-!
Verification of `nonebot_plugin_markdown2img` (renderer.py) against its
natural-language specification.

Strings from the Python source are embedded as `List Char`; external
collaborators (the md5 hash from `hashlib`, the network client `httpx`,
the `pygments` highlighter, the `html2image` capture surface and the PIL
bounding-box probe) are modelled as oracle function parameters, so that
every theorem quantifies over all behaviours of the collaborator while the
control flow of the repository's own code is embedded faithfully.
-/

namespace Markdown2Img

/-- The double-quote character `"`. -/
def quotChar : Char := Char.ofNat 34

/-- The character `<`. -/
def ltChar : Char := Char.ofNat 60

/-- The character `>`. -/
def gtChar : Char := Char.ofNat 62

/-- The newline character. -/
def nlChar : Char := Char.ofNat 10

/-- The backquote character used by fenced code blocks. -/
def tickChar : Char := Char.ofNat 96

/-- Python `s.split(sep)[-1]`: the segment of `cs` after the last
occurrence of `sep` (the whole string when `sep` does not occur). -/
def lastSegment (sep : Char) (cs : List Char) : List Char :=
  (cs.reverse.takeWhile (fun c => c ≠ sep)).reverse

/-- renderer.py line 73: the cache file extension,
`url.split(".")[-1] if "." in url.split("/")[-1] else "jpg"`. -/
def fileExt (url : List Char) : List Char :=
  if (lastSegment '/' url).contains '.' then lastSegment '.' url
  else "jpg".toList

/-- The scheme test string `"http://"` from renderer.py line 67. -/
def httpPre : List Char := "http://".toList

/-- The scheme test string `"https://"` from renderer.py lines 67 and 127. -/
def httpsPre : List Char := "https://".toList

/-- renderer.py lines 72-74: the cache file name `f"{url_hash}.{file_ext}"`.
The md5 digest from `hashlib` is an external collaborator and is passed in
as the function `hash`. -/
def cachePath (hash : List Char → List Char) (url : List Char) : List Char :=
  hash url ++ '.' :: fileExt url

/-- Result of one run of `download_and_cache_image`:
`result` is `Sum.inl url` when the original URL is returned unchanged and
`Sum.inr path` when a local-file reference (`cache_file.as_uri()`) to the
cache file `path` is returned; `fs` is the set (list) of cache file names
existing after the call; `fetchCalls` counts network requests issued;
`schemeRejected` records whether the early return for an unrecognized URL
scheme (renderer.py lines 67-69) was taken. -/
structure ResolveOut where
  result : List Char ⊕ List Char
  fs : List (List Char)
  fetchCalls : Nat
  schemeRejected : Bool
deriving DecidableEq

/-- renderer.py lines 56-107, `download_and_cache_image`.
The network client is the oracle `fetch`; `Except.error` covers every
failure the Python `except Exception` clause catches (connection error,
timeout, and the non-2xx statuses raised by `raise_for_status`).  The
function is total: a fetch failure is absorbed into returning the original
URL, exactly as the source's try/except does. -/
def download_and_cache_image (hash : List Char → List Char)
    (fetch : List Char → Except Nat (List Nat))
    (fs : List (List Char)) (url : List Char) : ResolveOut :=
  if httpPre.isPrefixOf url || httpsPre.isPrefixOf url then
    let path := cachePath hash url
    if path ∈ fs then ⟨Sum.inr path, fs, 0, false⟩
    else
      match fetch url with
      | Except.ok _ => ⟨Sum.inr path, path :: fs, 1, false⟩
      | Except.error _ => ⟨Sum.inl url, fs, 1, false⟩
  else ⟨Sum.inl url, fs, 0, true⟩

/-- The unstyled fallback block `f"<pre><code>{code}</code></pre>"` from
renderer.py lines 172 and 180. -/
def preCodeBlock (code : List Char) : List Char :=
  "<pre><code>".toList ++ code ++ "</code></pre>".toList

/-- renderer.py lines 169-180, `highlight_code`.  The pygments pipeline
(`get_lexer_by_name`, `HtmlFormatter`, `highlight`) is an external
collaborator modelled by the oracle `hl`; `none` covers every exception the
`except Exception` clause catches (in particular the unknown-language
`ClassNotFound`). -/
def highlight_code (hl : List Char → List Char → Option (List Char))
    (code lang : List Char) : List Char :=
  if lang.isEmpty then preCodeBlock code
  else
    match hl lang code with
    | some out => out
    | none => preCodeBlock code

/-- A PIL bounding box `(left, top, right, bottom)` as returned by
`getbbox()` on renderer.py lines 452 and 456. -/
structure Bbox where
  left : Nat
  top : Nat
  right : Nat
  bottom : Nat
deriving DecidableEq

/-- A crop rectangle as passed to `img.crop` on renderer.py line 487. -/
structure CropRect where
  left : Int
  top : Int
  right : Int
  bottom : Int
deriving DecidableEq

/-- renderer.py lines 477-487: the effective crop rectangle of the
post-processing step.  With no bounding box the bounds stay
`top = 0, bottom = img.height` and `img.crop` is not invoked, which equals
keeping the full image; with a bounding box the bounds are
`top = max(0, bbox[1] - 32)` and `bottom = min(img.height, bbox[3] + 32)`
(`vertical_padding = 32`), and the horizontal extent is always
`[0, img.width]`. -/
def cropRect (width height : Nat) (bbox : Option Bbox) : CropRect :=
  match bbox with
  | none => ⟨0, 0, width, height⟩
  | some bb =>
      ⟨0, max 0 ((bb.top : Int) - 32), width,
        min (height : Int) ((bb.bottom : Int) + 32)⟩

/-- Python `markdown_text.count("```")` (renderer.py line 422): the number
of non-overlapping occurrences of three backquotes, scanned left to
right. -/
def countFences : List Char → Nat
  | a :: b :: c :: rest =>
      if a = tickChar ∧ b = tickChar ∧ c = tickChar then countFences rest + 1
      else countFences (b :: c :: rest)
  | _ => 0

/-- renderer.py lines 421-424: the seed viewport height
`max(text_lines * 20 + code_blocks * 200, 800)` where
`text_lines = len(markdown_text.split("\n"))` (one more than the number of
newlines) and `code_blocks = markdown_text.count("```")`. -/
def estimatedHeight (md : List Char) : Nat :=
  max ((md.count nlChar + 1) * 20 + countFences md * 200) 800

/-- The data the loop body reads from a captured screenshot file
(renderer.py lines 449-458): the image height and the content bounding box
computed from the alpha channel or the background diff.  The capture
surface plus PIL probe are external collaborators, modelled as an oracle
from the requested viewport height to a `Probe`. -/
structure Probe where
  height : Nat
  bbox : Option Bbox
deriving DecidableEq

/-- The accumulator of the adaptive-height loop (renderer.py lines
424-474): current `estimated_height`, `attempts`, `final_bbox`, the probe
of the current screenshot file, and the log of every viewport height passed
to `capture_once` so far (in order). -/
structure ResolveState where
  est : Nat
  attempts : Nat
  finalBbox : Option Bbox
  img : Probe
  log : List Nat
deriving DecidableEq

/-- renderer.py lines 470-473: the height growth step.
`int(min(estimated_height * 2, max_height))` when (the just-incremented)
`attempts < 3`, else `int(min(estimated_height * 1.5, max_height))`; the
float product `est * 1.5` is exact and `int` truncates, giving
`est * 3 / 2` in integer arithmetic. -/
def growHeight (attempts est : Nat) : Nat :=
  if attempts < 3 then min (est * 2) 50000 else min (est * 3 / 2) 50000

/-- renderer.py lines 447-474: the `while attempts < 4` loop.  Each
iteration increments `attempts`, probes the current image, records
`final_bbox`, breaks when the bounding box is `None`, when the bottom
margin exceeds `margin_threshold = 120`, when the probed height reaches
`max_height = 50000`, when `attempts >= 6` or the current
`estimated_height` reaches `max_height`; otherwise it grows the height and
captures again.  `fuel` bounds the recursion; `fuel = 4` reproduces the
`while attempts < 4` guard exactly when starting from `attempts = 0`,
because the guard itself is also re-checked. -/
def resolveLoop (cap : Nat → Probe) : Nat → ResolveState → ResolveState
  | 0, s => s
  | fuel + 1, s =>
    if s.attempts < 4 then
      match s.img.bbox with
      | none => { s with attempts := s.attempts + 1, finalBbox := none }
      | some bb =>
        if (s.img.height : Int) - (bb.bottom : Int) > 120 ∨
            50000 ≤ s.img.height then
          { s with attempts := s.attempts + 1, finalBbox := some bb }
        else if 6 ≤ s.attempts + 1 ∨ 50000 ≤ s.est then
          { s with attempts := s.attempts + 1, finalBbox := some bb }
        else
          resolveLoop cap fuel
            { est := growHeight (s.attempts + 1) s.est,
              attempts := s.attempts + 1,
              finalBbox := some bb,
              img := cap (growHeight (s.attempts + 1) s.est),
              log := s.log ++ [growHeight (s.attempts + 1) s.est] }
    else s

/-- renderer.py lines 421-474: seed the height from the content heuristics,
capture once, then run the adaptive loop. -/
def renderResolve (cap : Nat → Probe) (md : List Char) : ResolveState :=
  resolveLoop cap 4
    { est := estimatedHeight md, attempts := 0, finalBbox := none,
      img := cap (estimatedHeight md), log := [estimatedHeight md] }

/-- The growth step never exceeds the hard maximum height. -/
theorem growHeight_le (attempts est : Nat) : growHeight attempts est ≤ 50000 := by
  unfold growHeight
  split
  · exact Nat.min_le_right _ _
  · exact Nat.min_le_right _ _

/-- The loop only appends to the capture log, so the first requested
height is preserved. -/
theorem resolveLoop_log_head (cap : Nat → Probe) (fuel : Nat)
    (s : ResolveState) (x : Nat) (hx : s.log.head? = some x) :
    (resolveLoop cap fuel s).log.head? = some x := by
  induction fuel generalizing s with
  | zero => simpa [resolveLoop] using hx
  | succ n ih =>
    by_cases h4 : s.attempts < 4
    · simp only [resolveLoop, if_pos h4]
      cases hbb : s.img.bbox with
      | none => simpa using hx
      | some bb =>
        by_cases hc1 : (s.img.height : Int) - (bb.bottom : Int) > 120 ∨
            50000 ≤ s.img.height
        · simpa [hc1] using hx
        · by_cases hc2 : 6 ≤ s.attempts + 1 ∨ 50000 ≤ s.est
          · simp only [if_neg hc1, if_pos hc2]
            simpa using hx
          · simp only [if_neg hc1, if_neg hc2]
            apply ih
            cases hl : s.log with
            | nil => rw [hl] at hx; simp at hx
            | cons y ys => rw [hl] at hx; simpa using hx
    · simpa [resolveLoop, if_neg h4] using hx

/-- Every height the loop ever requests is bounded by any `M` that bounds
both the heights requested so far and the hard maximum `50000`, because
every grown height is clamped to `50000`. -/
theorem resolveLoop_log_bound (cap : Nat → Probe) (fuel : Nat)
    (s : ResolveState) (M : Nat) (hM : 50000 ≤ M)
    (hs : ∀ x ∈ s.log, x ≤ M) :
    ∀ x ∈ (resolveLoop cap fuel s).log, x ≤ M := by
  induction fuel generalizing s with
  | zero => simpa [resolveLoop] using hs
  | succ n ih =>
    by_cases h4 : s.attempts < 4
    · simp only [resolveLoop, if_pos h4]
      cases hbb : s.img.bbox with
      | none => simpa using hs
      | some bb =>
        by_cases hc1 : (s.img.height : Int) - (bb.bottom : Int) > 120 ∨
            50000 ≤ s.img.height
        · simpa [hc1] using hs
        · by_cases hc2 : 6 ≤ s.attempts + 1 ∨ 50000 ≤ s.est
          · simp only [if_neg hc1, if_pos hc2]
            simpa using hs
          · simp only [if_neg hc1, if_neg hc2]
            apply ih
            intro x hx
            rcases List.mem_append.1 hx with hx | hx
            · exact hs x hx
            · have hx' : x = growHeight (s.attempts + 1) s.est := by
                simpa using hx
              subst hx'
              exact le_trans (growHeight_le _ _) hM
    · simpa [resolveLoop, if_neg h4] using hs

/-- One continuing iteration of the loop: when the guard holds, the box is
present, the bottom margin is within threshold and both heights are below
the hard maximum, the loop grows the height and recurses. -/
theorem resolveLoop_step (cap : Nat → Probe) (fuel : Nat)
    (s : ResolveState) (bb : Bbox)
    (h4 : s.attempts < 4)
    (hbb : s.img.bbox = some bb)
    (hm : (s.img.height : Int) - (bb.bottom : Int) ≤ 120)
    (hh : s.img.height < 50000)
    (he : s.est < 50000) :
    resolveLoop cap (fuel + 1) s
      = resolveLoop cap fuel
          { est := growHeight (s.attempts + 1) s.est,
            attempts := s.attempts + 1,
            finalBbox := some bb,
            img := cap (growHeight (s.attempts + 1) s.est),
            log := s.log ++ [growHeight (s.attempts + 1) s.est] } := by
  have hc1 : ¬((s.img.height : Int) - (bb.bottom : Int) > 120 ∨
      50000 ≤ s.img.height) := by
    push_neg
    exact ⟨hm, hh⟩
  have hc2 : ¬(6 ≤ s.attempts + 1 ∨ 50000 ≤ s.est) := by
    push_neg
    omega
  simp only [resolveLoop, if_pos h4, hbb, if_neg hc1, if_neg hc2]

/-- Once `attempts` has reached the `while` guard bound `4`, the loop
returns its state unchanged. -/
theorem resolveLoop_stop (cap : Nat → Probe) (fuel : Nat)
    (s : ResolveState) (h4 : ¬ s.attempts < 4) :
    resolveLoop cap fuel s = s := by
  cases fuel with
  | zero => rfl
  | succ n => simp [resolveLoop, if_neg h4]

/-- `resolveLoop_step` restated on an explicit state literal, for direct
rewriting. -/
theorem resolveLoop_step4 (cap : Nat → Probe) (fuel e a : Nat)
    (fb : Option Bbox) (img : Probe) (lg : List Nat) (bb : Bbox)
    (h4 : a < 4) (hbb : img.bbox = some bb)
    (hm : (img.height : Int) - (bb.bottom : Int) ≤ 120)
    (hh : img.height < 50000) (he : e < 50000) :
    resolveLoop cap (fuel + 1) ⟨e, a, fb, img, lg⟩
      = resolveLoop cap fuel
          ⟨growHeight (a + 1) e, a + 1, some bb,
            cap (growHeight (a + 1) e), lg ++ [growHeight (a + 1) e]⟩ :=
  resolveLoop_step cap fuel ⟨e, a, fb, img, lg⟩ bb h4 hbb hm hh he

/-- When every capture yields a bounding box with bottom margin within the
threshold and a height below the hard maximum, and the seed is small enough
that every grown height stays below the hard maximum, the loop runs all 4
`while`-guard iterations and requests exactly the heights
`e, 2e, 4e, 6e, growHeight 4 (6e)`. -/
theorem resolveLoop_run4 (cap : Nat → Probe) (e : Nat)
    (hcap : ∀ h, ∃ bb, (cap h).bbox = some bb ∧
        ((cap h).height : Int) - (bb.bottom : Int) ≤ 120 ∧
        (cap h).height < 50000)
    (h6 : 6 * e < 50000) :
    (resolveLoop cap 4 ⟨e, 0, none, cap e, [e]⟩).attempts = 4 ∧
    (resolveLoop cap 4 ⟨e, 0, none, cap e, [e]⟩).log
      = [e, 2 * e, 4 * e, 6 * e, growHeight 4 (6 * e)] := by
  obtain ⟨bb0, hbb0, hm0, hh0⟩ := hcap e
  obtain ⟨bb1, hbb1, hm1, hh1⟩ := hcap (2 * e)
  obtain ⟨bb2, hbb2, hm2, hh2⟩ := hcap (4 * e)
  obtain ⟨bb3, hbb3, hm3, hh3⟩ := hcap (6 * e)
  have hg1 : growHeight (0 + 1) e = 2 * e := by
    unfold growHeight
    rw [if_pos (by omega)]
    omega
  have hg2 : growHeight (0 + 1 + 1) (2 * e) = 4 * e := by
    unfold growHeight
    rw [if_pos (by omega)]
    omega
  have hg3 : growHeight (0 + 1 + 1 + 1) (4 * e) = 6 * e := by
    unfold growHeight
    rw [if_neg (by omega)]
    omega
  rw [show (4 : Nat) = 3 + 1 from rfl,
    resolveLoop_step4 cap 3 e 0 none (cap e) [e] bb0 (by omega) hbb0 hm0
      hh0 (by omega), hg1,
    show (3 : Nat) = 2 + 1 from rfl,
    resolveLoop_step4 cap 2 (2 * e) (0 + 1) (some bb0) (cap (2 * e))
      ([e] ++ [2 * e]) bb1 (by omega) hbb1 hm1 hh1 (by omega), hg2,
    show (2 : Nat) = 1 + 1 from rfl,
    resolveLoop_step4 cap 1 (4 * e) (0 + 1 + 1) (some bb1) (cap (4 * e))
      ([e] ++ [2 * e] ++ [4 * e]) bb2 (by omega) hbb2 hm2 hh2 (by omega),
    hg3,
    show (1 : Nat) = 0 + 1 from rfl,
    resolveLoop_step4 cap 0 (6 * e) (0 + 1 + 1 + 1) (some bb2) (cap (6 * e))
      ([e] ++ [2 * e] ++ [4 * e] ++ [6 * e]) bb3 (by omega) hbb3 hm3 hh3
      (by omega)]
  refine ⟨rfl, ?_⟩
  show [e] ++ [2 * e] ++ [4 * e] ++ [6 * e] ++
      [growHeight (0 + 1 + 1 + 1 + 1) (6 * e)]
    = [e, 2 * e, 4 * e, 6 * e, growHeight 4 (6 * e)]
  simp

/-- A markdown document of 102 lines (101 newlines) containing exactly one
well-formed fenced code block, i.e. two ``` fence markers. -/
def mdFenceDoc : List Char :=
  List.replicate 99 nlChar ++
    [tickChar, tickChar, tickChar, nlChar, 'x', nlChar,
      tickChar, tickChar, tickChar]

/-- A markdown document of 3001 lines (3000 newlines) and no fences. -/
def mdLongDoc : List Char := List.replicate 3000 nlChar

/-- Modelled from the spec's words for claim C2, for comparison with the
source formula: the number of fenced code blocks of the document, each
block contributing an opening and a closing ``` fence marker. -/
def specFencedCodeBlockCount (md : List Char) : Nat := countFences md / 2

/-- Modelled from the spec's words for claim C2, for comparison with the
source formula: the seed
`max(line_count * 20 + fenced_code_block_count * 200, 800)` capped at the
hard maximum 50000. -/
def specSeedHeight (md : List Char) : Nat :=
  min
    (max ((md.count nlChar + 1) * 20 + specFencedCodeBlockCount md * 200)
      800)
    50000

/-- A string without backquotes contains no fence marker. -/
theorem countFences_eq_zero (l : List Char) (h : tickChar ∉ l) :
    countFences l = 0 := by
  induction l with
  | nil => rfl
  | cons a t ih =>
    cases t with
    | nil => rfl
    | cons b t2 =>
      cases t2 with
      | nil => rfl
      | cons c t3 =>
        simp only [List.mem_cons, not_or] at h
        have ha : ¬(a = tickChar ∧ b = tickChar ∧ c = tickChar) := by
          intro hand
          exact h.1 hand.1.symm
        rw [show countFences (a :: b :: c :: t3)
            = if a = tickChar ∧ b = tickChar ∧ c = tickChar
              then countFences t3 + 1 else countFences (b :: c :: t3)
          from rfl, if_neg ha]
        exact ih (by simp only [List.mem_cons, not_or]; exact h.2)

/-- The 3001-line document contains no fence marker. -/
theorem countFences_mdLongDoc : countFences mdLongDoc = 0 := by
  apply countFences_eq_zero
  intro hm
  rw [mdLongDoc, List.mem_replicate] at hm
  exact absurd hm.2 (by decide)

/-- Newline count of a replicated-newline document. -/
theorem count_replicate_nl (n : Nat) :
    (List.replicate n nlChar).count nlChar = n := by
  induction n with
  | zero => rfl
  | succ k ih => simp [List.replicate_succ, List.count_cons, ih]

/-- Newline count of the 3001-line document. -/
theorem count_mdLongDoc : mdLongDoc.count nlChar = 3000 := by
  rw [mdLongDoc]
  exact count_replicate_nl 3000

/-- The seed of the 3001-line document, 60020, exceeds the hard maximum. -/
theorem estimatedHeight_mdLongDoc : estimatedHeight mdLongDoc = 60020 := by
  unfold estimatedHeight
  rw [countFences_mdLongDoc, count_mdLongDoc]
  decide

set_option maxRecDepth 4000 in
/-- Claim C2 is false on the code: on a 102-line document with one fenced
code block the code seeds 2440 (each block contributes its two ``` markers,
400 px) while the claim's formula gives 2240; and on a 3001-line document
the code seeds 60020 — the seed is not capped at 50000. -/
theorem seed_height_claim_false :
    estimatedHeight mdFenceDoc = 2440 ∧
    specSeedHeight mdFenceDoc = 2240 ∧
    estimatedHeight mdFenceDoc ≠ specSeedHeight mdFenceDoc ∧
    estimatedHeight mdLongDoc = 60020 ∧
    specSeedHeight mdLongDoc = 50000 ∧
    estimatedHeight mdLongDoc ≠ specSeedHeight mdLongDoc := by
  have h1 : estimatedHeight mdLongDoc = 60020 := estimatedHeight_mdLongDoc
  have h2 : specSeedHeight mdLongDoc = 50000 := by
    unfold specSeedHeight specFencedCodeBlockCount
    rw [countFences_mdLongDoc, count_mdLongDoc]
    decide
  refine ⟨by decide, by decide, by decide, h1, h2, ?_⟩
  rw [h1, h2]
  decide

/-- Claim C2 (amended): the seed viewport height — the height at which the
very first capture is issued — equals
`max(line_count * 20 + fence_marker_count * 200, 800)` where
`fence_marker_count` counts occurrences of ``` (so each well-formed fenced
block contributes twice), and no cap is applied to the seed: the 50000
clamp applies only to the later growth steps (`growHeight_le`). -/
theorem seed_height_formula (cap : Nat → Probe) (md : List Char) :
    (renderResolve cap md).log.head?
      = some (max ((md.count nlChar + 1) * 20 + countFences md * 200)
          800) :=
  resolveLoop_log_head cap 4 _ _ rfl

/-- The capture oracle used for claim C1's concrete run: every capture
reports height `min h 40000` with a bounding box reaching the bottom of the
image (bottom margin 0). -/
def capConst : Nat → Probe :=
  fun h => ⟨min h 40000, some ⟨0, 0, 8, min h 40000⟩⟩

/-- A capture oracle that never finds content. -/
def capNone : Nat → Probe := fun h => ⟨h, none⟩

/-- The loop-body stop conditions other than the attempt caps, as a
decidable check on one probe: a bounding box is present, the bottom margin
is within the 120 px threshold and the probed height is below the hard
maximum. -/
def probeContinues (p : Probe) : Bool :=
  match p.bbox with
  | none => false
  | some bb =>
      decide ((p.height : Int) - (bb.bottom : Int) ≤ 120) &&
        decide (p.height < 50000)

/-- Claim C1 is false on the code: with a capture oracle for which every
probed attempt finds a bounding box with bottom margin 0 and a height below
the hard maximum, and with every requested height below the hard maximum,
the loop still stops with the attempts counter at 4 — the `while
attempts < 4` guard is exhausted and the inner cap `attempts >= 6` is
unreachable; moreover on a 3001-line document the very first requested
height is 60020 > 50000, so the resolver can exceed the hard maximum. -/
theorem adaptive_cap_claim_false :
    ((renderResolve capConst []).log.dropLast.all
        (fun h => probeContinues (capConst h))) = true ∧
    ((renderResolve capConst []).log.all
        (fun h => decide (h < 50000))) = true ∧
    (renderResolve capConst []).attempts = 4 ∧
    (renderResolve capConst []).attempts ≠ 6 ∧
    (renderResolve capNone mdLongDoc).log.head? = some 60020 ∧
    ¬ 60020 ≤ 50000 := by
  refine ⟨by decide, by decide, by decide, by decide, ?_, by decide⟩
  have h := resolveLoop_log_head capNone 4
    ⟨estimatedHeight mdLongDoc, 0, none,
      capNone (estimatedHeight mdLongDoc), [estimatedHeight mdLongDoc]⟩
    (estimatedHeight mdLongDoc) rfl
  unfold renderResolve
  rw [h, estimatedHeight_mdLongDoc]

/-- Claim C1 (amended): for every run in which each attempt finds a
bounding box whose bottom margin is at most 120 px, each probed height is
below the hard maximum, and the seed is small enough that every current
height stays below the hard maximum, the loop keeps capturing and stops
exactly when the `while attempts < 4` iteration bound is exhausted: the
attempts counter ends at 4 — the inner attempt cap of 6 is never reached —
after 5 captures; and no requested height ever exceeds
`max (seed, 50000)`: growth steps are clamped to the hard maximum, and only
the unclamped seed itself could exceed it. -/
theorem adaptive_cap_amended (cap : Nat → Probe) (md : List Char)
    (hcap : ∀ h, ∃ bb, (cap h).bbox = some bb ∧
        ((cap h).height : Int) - (bb.bottom : Int) ≤ 120 ∧
        (cap h).height < 50000)
    (hseed : 6 * estimatedHeight md < 50000) :
    (renderResolve cap md).attempts = 4 ∧
    (renderResolve cap md).attempts ≠ 6 ∧
    (renderResolve cap md).log.length = 5 ∧
    (∀ x ∈ (renderResolve cap md).log,
      x ≤ max (estimatedHeight md) 50000) := by
  have hrun := resolveLoop_run4 cap (estimatedHeight md) hcap hseed
  unfold renderResolve
  refine ⟨hrun.1, by omega, ?_, ?_⟩
  · rw [hrun.2]
    rfl
  · intro x hx
    rw [hrun.2] at hx
    have hgl := growHeight_le 4 (6 * estimatedHeight md)
    simp only [List.mem_cons, List.mem_singleton, List.not_mem_nil,
      or_false] at hx
    rcases hx with h | h | h | h | h <;> subst h <;> omega

/-- Witness for the amended C1 at the concrete oracle `capConst` and the
empty document (seed 800). -/
theorem adaptive_cap_amended_witness :
    (renderResolve capConst []).attempts = 4 ∧
    (renderResolve capConst []).attempts ≠ 6 ∧
    (renderResolve capConst []).log.length = 5 ∧
    (∀ x ∈ (renderResolve capConst []).log,
      x ≤ max (estimatedHeight []) 50000) := by
  apply adaptive_cap_amended capConst []
  · intro h
    refine ⟨⟨0, 0, 8, min h 40000⟩, rfl, ?_, ?_⟩
    · simp [capConst]
    · show min h 40000 < 50000
      omega
  · decide

/-- Claim C5: resolving the same `https://` URL twice yields the same local
path both times, and the second resolution performs no network call: once
the cache file exists, `download_and_cache_image` returns the cached local
reference without fetching.  The hypothesis `hok` states that the first
resolution actually produces the cache file (the fetch succeeds) or that
the file already exists — without it no local path is produced at all. -/
theorem resolve_idempotent_cached (hash : List Char → List Char)
    (fetch : List Char → Except Nat (List Nat)) (fs : List (List Char))
    (url : List Char) (content : List Nat)
    (hs : httpsPre.isPrefixOf url = true)
    (hok : fetch url = Except.ok content ∨ cachePath hash url ∈ fs) :
    (download_and_cache_image hash fetch fs url).result
        = Sum.inr (cachePath hash url) ∧
    (download_and_cache_image hash fetch
        (download_and_cache_image hash fetch fs url).fs url).result
        = Sum.inr (cachePath hash url) ∧
    (download_and_cache_image hash fetch
        (download_and_cache_image hash fetch fs url).fs url).fetchCalls
        = 0 := by
  by_cases hmem : cachePath hash url ∈ fs
  · simp [download_and_cache_image, hs, hmem]
  · rcases hok with hok | hok
    · simp [download_and_cache_image, hs, hmem, hok]
    · exact absurd hok hmem

/-- Witness for C5 at a concrete URL, stub hash and always-succeeding
fetcher, starting from an empty cache directory. -/
theorem resolve_idempotent_cached_witness :
    (download_and_cache_image (fun _ => ['h']) (fun _ => Except.ok [1]) []
        "https://a.b/c.png".toList).result
        = Sum.inr (cachePath (fun _ => ['h']) "https://a.b/c.png".toList) ∧
    (download_and_cache_image (fun _ => ['h']) (fun _ => Except.ok [1])
        (download_and_cache_image (fun _ => ['h']) (fun _ => Except.ok [1]) []
          "https://a.b/c.png".toList).fs "https://a.b/c.png".toList).result
        = Sum.inr (cachePath (fun _ => ['h']) "https://a.b/c.png".toList) ∧
    (download_and_cache_image (fun _ => ['h']) (fun _ => Except.ok [1])
        (download_and_cache_image (fun _ => ['h']) (fun _ => Except.ok [1]) []
          "https://a.b/c.png".toList).fs "https://a.b/c.png".toList).fetchCalls
        = 0 :=
  resolve_idempotent_cached (fun _ => ['h']) (fun _ => Except.ok [1]) []
    "https://a.b/c.png".toList [1] (by decide) (Or.inl rfl)

/-- Claim C7: on any fetch failure during image caching (network error,
non-2xx HTTP status or timeout — all reaching the `except Exception`
clause), `download_and_cache_image` returns the original URL unchanged,
leaves the cache untouched, and recovers locally: being a total function of
the failing fetch oracle, it propagates no error. -/
theorem resolve_fetch_failure_soft (hash : List Char → List Char)
    (fetch : List Char → Except Nat (List Nat)) (fs : List (List Char))
    (url : List Char) (e : Nat)
    (hs : (httpPre.isPrefixOf url || httpsPre.isPrefixOf url) = true)
    (hmiss : cachePath hash url ∉ fs)
    (hfail : fetch url = Except.error e) :
    download_and_cache_image hash fetch fs url
      = ⟨Sum.inl url, fs, 1, false⟩ := by
  simp [download_and_cache_image, hs, hmiss, hfail]

/-- Witness for C7 at a concrete URL with an always-failing fetcher. -/
theorem resolve_fetch_failure_soft_witness :
    download_and_cache_image (fun _ => ['h']) (fun _ => Except.error 7) []
        "https://a.b/c.png".toList
      = ⟨Sum.inl "https://a.b/c.png".toList, [], 1, false⟩ :=
  resolve_fetch_failure_soft (fun _ => ['h']) (fun _ => Except.error 7) []
    "https://a.b/c.png".toList 7 (by decide) (by decide) rfl

/-- Claim C10: a URL beginning with `http://` never takes the early
return-unchanged branch reserved for unrecognized schemes (renderer.py
line 67 tests the tuple `("http://", "https://")`); it proceeds to hash,
cache lookup and download exactly as an `https://` URL does: a cache hit
returns the cached path with no fetch, and a cache miss issues exactly one
fetch, caching on success and soft-failing to the original URL on error. -/
theorem resolve_http_scheme_recognized (hash : List Char → List Char)
    (fetch : List Char → Except Nat (List Nat)) (fs : List (List Char))
    (url : List Char)
    (hh : httpPre.isPrefixOf url = true) :
    (download_and_cache_image hash fetch fs url).schemeRejected = false ∧
    (cachePath hash url ∈ fs →
      download_and_cache_image hash fetch fs url
        = ⟨Sum.inr (cachePath hash url), fs, 0, false⟩) ∧
    (cachePath hash url ∉ fs →
      (download_and_cache_image hash fetch fs url).fetchCalls = 1 ∧
      (∀ c, fetch url = Except.ok c →
        download_and_cache_image hash fetch fs url
          = ⟨Sum.inr (cachePath hash url), cachePath hash url :: fs, 1,
              false⟩) ∧
      (∀ e, fetch url = Except.error e →
        download_and_cache_image hash fetch fs url
          = ⟨Sum.inl url, fs, 1, false⟩)) := by
  refine ⟨?_, ?_, ?_⟩
  · by_cases hmem : cachePath hash url ∈ fs
    · simp [download_and_cache_image, hh, hmem]
    · cases hf : fetch url <;> simp [download_and_cache_image, hh, hmem, hf]
  · intro hmem
    simp [download_and_cache_image, hh, hmem]
  · intro hmem
    refine ⟨?_, ?_, ?_⟩
    · cases hf : fetch url <;>
        simp [download_and_cache_image, hh, hmem, hf]
    · intro c hf
      simp [download_and_cache_image, hh, hmem, hf]
    · intro e hf
      simp [download_and_cache_image, hh, hmem, hf]

/-- Witness for C10 at a concrete `http://` URL: a miss issues one fetch
and caches the file, exactly as for `https://`. -/
theorem resolve_http_scheme_recognized_witness :
    (download_and_cache_image (fun _ => ['h']) (fun _ => Except.ok [1]) []
        "http://a.b/c.png".toList).schemeRejected = false ∧
    (download_and_cache_image (fun _ => ['h']) (fun _ => Except.ok [1]) []
        "http://a.b/c.png".toList).fetchCalls = 1 ∧
    download_and_cache_image (fun _ => ['h']) (fun _ => Except.ok [1]) []
        "http://a.b/c.png".toList
      = ⟨Sum.inr (cachePath (fun _ => ['h']) "http://a.b/c.png".toList),
          [cachePath (fun _ => ['h']) "http://a.b/c.png".toList], 1,
          false⟩ := by
  have h := resolve_http_scheme_recognized (fun _ => ['h'])
    (fun _ => Except.ok [1]) [] "http://a.b/c.png".toList (by decide)
  have hmiss : cachePath (fun _ => ['h']) "http://a.b/c.png".toList ∉
      ([] : List (List Char)) := by decide
  exact ⟨h.1, (h.2.2 hmiss).1, (h.2.2 hmiss).2.1 [1] rfl⟩

/-- Claim C8: with a detected bounding box the post-processor crops to
`[0, max(0, bbox.top - 32), width, min(height, bbox.bottom + 32)]`; with no
bounding box the full image is kept; under the PIL guarantee that the
bounding box lies within the probed image, all four bounds lie within
`[0, height]` (resp. `[0, width]`), and a bbox touching the top-left corner
yields no negative coordinate. -/
theorem crop_bounds_clamped (w h : Nat) (bb : Bbox)
    (hb : bb.top ≤ bb.bottom ∧ bb.bottom ≤ h) :
    cropRect w h none = ⟨0, 0, w, h⟩ ∧
    (cropRect w h (some bb)).left = 0 ∧
    (cropRect w h (some bb)).right = w ∧
    (cropRect w h (some bb)).top = max 0 ((bb.top : Int) - 32) ∧
    (cropRect w h (some bb)).bottom
      = min (h : Int) ((bb.bottom : Int) + 32) ∧
    0 ≤ (cropRect w h (some bb)).top ∧
    (cropRect w h (some bb)).top ≤ (h : Int) ∧
    0 ≤ (cropRect w h (some bb)).bottom ∧
    (cropRect w h (some bb)).bottom ≤ (h : Int) ∧
    (bb.left = 0 → bb.top = 0 → (cropRect w h (some bb)).top = 0) := by
  obtain ⟨h1, h2⟩ := hb
  refine ⟨rfl, rfl, rfl, rfl, rfl, ?_, ?_, ?_, ?_, ?_⟩
  · simp [cropRect]
  · simp only [cropRect]
    omega
  · simp only [cropRect]
    omega
  · simp only [cropRect]
    omega
  · intro _ ht
    simp [cropRect, ht]

/-- Witness for C8: a bounding box touching the top-left corner of a
100 × 500 capture. -/
theorem crop_bounds_clamped_witness :
    cropRect 100 500 none = ⟨0, 0, 100, 500⟩ ∧
    (cropRect 100 500 (some ⟨0, 0, 40, 90⟩)).top = 0 ∧
    0 ≤ (cropRect 100 500 (some ⟨0, 0, 40, 90⟩)).top ∧
    (cropRect 100 500 (some ⟨0, 0, 40, 90⟩)).bottom ≤ (500 : Int) := by
  have h := crop_bounds_clamped 100 500 ⟨0, 0, 40, 90⟩ (by decide)
  exact ⟨h.1, h.2.2.2.2.2.2.2.2.2 rfl rfl, h.2.2.2.2.2.1, h.2.2.2.2.2.2.2.2.1⟩

/-- Claim C9: for a fenced code block whose language is missing, and
whenever the external highlighter pipeline raises (unknown language
included), `highlight_code` falls back to the unstyled
`<pre><code>…</code></pre>` block containing the code text; being total in
the oracle, it never surfaces a highlighter error. -/
theorem highlight_fallback (hl : List Char → List Char → Option (List Char))
    (code lang : List Char)
    (h : lang = [] ∨ hl lang code = none) :
    highlight_code hl code lang = preCodeBlock code := by
  rcases h with h | h
  · simp [highlight_code, h]
  · by_cases he : lang.isEmpty <;> simp [highlight_code, he, h]

/-- Witness for C9: the unknown fence language `rust-nonexistent` with a
highlighter oracle that always raises. -/
theorem highlight_fallback_witness :
    highlight_code (fun _ _ => none) "fn main() {}".toList
        "rust-nonexistent".toList
      = preCodeBlock "fn main() {}".toList :=
  highlight_fallback (fun _ _ => none) "fn main() {}".toList
    "rust-nonexistent".toList (Or.inr rfl)

/-- Error values in the orchestrator model: `RenderErr.render c` is the
uniform `RuntimeError` re-raised at renderer.py line 518 (tagged with an
underlying cause `c`), and `RenderErr.unlinkLock` is an exception raised by
`temp_img_path.unlink()` itself (e.g. a Windows file lock) inside the
finally block at renderer.py line 523. -/
inductive RenderErr where
  | render (cause : Nat)
  | unlinkLock
deriving DecidableEq

/-- Outcome of one orchestrator run together with whether the temp
screenshot file still exists afterwards. -/
structure CleanupResult where
  outcome : Except RenderErr (List Nat)
  tempExists : Bool

/-- renderer.py lines 329-523: the try/except/finally skeleton of
`render_markdown_to_image_bytes`.  `body` is the outcome of the try body
after the `except Exception` clause at lines 504-518 has already
normalized any failure into the single re-raised RuntimeError
(`Except.error (RenderErr.render c)`); `tempAfterBody` says whether the
temp screenshot file exists when the finally block runs; `unlinkRaises`
says whether `temp_img_path.unlink()` raises.  Python semantics: an
exception raised inside a finally block replaces the in-flight exception
or return value, and the finally block at lines 520-523 has no try/except
around `unlink()`. -/
def render_cleanup (body : Except RenderErr (List Nat))
    (tempAfterBody : Bool) (unlinkRaises : Bool) : CleanupResult :=
  if tempAfterBody then
    if unlinkRaises then ⟨Except.error RenderErr.unlinkLock, true⟩
    else ⟨body, false⟩
  else ⟨body, false⟩

/-- renderer.py lines 536-546, `clean_up`, restricted to one leftover temp
file: the deletion attempt is wrapped in try/except PermissionError, so the
routine never raises; it returns whether the file remains on disk. -/
def clean_up_one (exists0 : Bool) (unlinkRaises : Bool) :
    Except RenderErr Bool :=
  if exists0 then
    if unlinkRaises then Except.ok true
    else Except.ok false
  else Except.ok false

/-- Claim C3 is false on the code: when the render body fails with the
normalized rendering error and the deletion in the finally block itself
raises (e.g. a file lock), the deletion error replaces — masks — the
original error, and the temp file is not deleted. -/
theorem temp_cleanup_claim_false :
    render_cleanup (Except.error (RenderErr.render 3)) true true
      = ⟨Except.error RenderErr.unlinkLock, true⟩ ∧
    (Except.error RenderErr.unlinkLock : Except RenderErr (List Nat))
      ≠ Except.error (RenderErr.render 3) :=
  ⟨rfl, by simp⟩

/-- Claim C3 (amended): the temp-file deletion is attempted on every exit
path (success, capture failure, unexpected exception — all flowing through
the same finally block), and whenever the deletion call itself does not
raise, the file is gone afterwards and the body's outcome (result or
original error) is passed through unchanged; but if the deletion raises
(e.g. a file lock), the deletion error propagates in place of the original
outcome and the file remains — a deletion failure is tolerated only in the
separate `clean_up` maintenance routine, which swallows it. -/
theorem temp_cleanup_amended (body : Except RenderErr (List Nat))
    (tempAfterBody : Bool) :
    (render_cleanup body tempAfterBody false).tempExists = false ∧
    (render_cleanup body tempAfterBody false).outcome = body ∧
    (render_cleanup body true true).outcome
      = Except.error RenderErr.unlinkLock ∧
    (render_cleanup body true true).tempExists = true ∧
    clean_up_one true true = Except.ok true := by
  cases tempAfterBody <;> simp [render_cleanup, clean_up_one]

/-- One Python file operation on the cache file, as performed by
renderer.py lines 98-99. -/
inductive FileOp where
  | openTrunc
  | writeAll (content : List Nat)
deriving DecidableEq

/-- Effect of one file operation on the observable state of the cache file
under its final name (`none` = no file): `open(cache_file, "wb")` creates
or truncates the file, making an empty file visible; the single
`f.write(response.content)` then fills it. -/
def applyOp (st : Option (List Nat)) : FileOp → Option (List Nat)
  | FileOp.openTrunc => some []
  | FileOp.writeAll c =>
      match st with
      | some _ => some c
      | none => none

/-- renderer.py lines 98-99: `with open(cache_file, "wb") as f:
f.write(response.content)` — the file operations issued directly under the
final cache name (there is no write-to-temp-then-rename step). -/
def downloadWriteOps (content : List Nat) : List FileOp :=
  [FileOp.openTrunc, FileOp.writeAll content]

/-- The sequence of observable cache-file states while a list of file
operations runs, starting from no file: the state before any operation and
after each one. -/
def fileStates (ops : List FileOp) : List (Option (List Nat)) :=
  ops.scanl applyOp none

/-- Claim C4 is false on the code: during a download of content `[1]` a
reader can observe the empty file `some []` under the final cache name —
neither absent nor fully written — and if the run stops after `open` but
before the write completes (e.g. a failure mid-write), an empty file stays
visible under the final cache name instead of no file. -/
theorem cache_write_atomic_claim_false :
    some ([] : List Nat) ∈ fileStates (downloadWriteOps [1]) ∧
    some ([] : List Nat) ≠ (none : Option (List Nat)) ∧
    some ([] : List Nat) ≠ some [1] ∧
    (fileStates ((downloadWriteOps [1]).take 1)).getLast? = some (some []) := by
  decide

/-- Claim C4 (amended): the cache file is written directly under its final
name by `open` (create/truncate) followed by one `write`: the observable
states are exactly `no file`, then `empty file`, then `full content`; on a
completed download the final state holds the full response body, but the
intermediate empty file is visible under the final name, and a failure
between `open` and the completed `write` leaves that empty file behind —
atomic visibility is not provided. -/
theorem cache_write_direct (content : List Nat) :
    fileStates (downloadWriteOps content)
      = [none, some [], some content] ∧
    (fileStates (downloadWriteOps content)).getLast? = some (some content) ∧
    (fileStates ((downloadWriteOps content).take 1)).getLast?
      = some (some []) := by
  refine ⟨rfl, ?_, rfl⟩
  rfl

/-- Python `s.replace(old, new)`: replaces every non-overlapping occurrence
of `old`, scanning left to right.  Every step consumes at least one
character of the scanned list, so a fuel equal to the list length makes the
recursion structural without changing the result.  (The source only calls
this with nonempty `old` — an img tag or a URL; for `old = []` this model
differs from Python's empty-pattern behaviour, which is never
exercised.) -/
def pyReplaceFuel (old new : List Char) : Nat → List Char → List Char
  | 0, l => l
  | _ + 1, [] => []
  | fuel + 1, c :: cs =>
    if old.isPrefixOf (c :: cs) then
      new ++ pyReplaceFuel old new fuel (cs.drop (old.length - 1))
    else c :: pyReplaceFuel old new fuel cs

/-- Python `s.replace(old, new)` (renderer.py line 154). -/
def pyReplace (s old new : List Char) : List Char :=
  pyReplaceFuel old new s.length s

/-- The literal `src="` of the img regex (renderer.py line 121). -/
def srcPat : List Char := "src=".toList ++ [quotChar]

/-- The literal `<img` of the img regex. -/
def imgPat : List Char := "<img".toList

/-- Tail of the regex after the `src="` literal: `([^"]+)"[^>]*>`.
`[^"]+` greedily captures at least one non-quote character and must be
followed by the closing quote (no backtracking is possible because the
quote is excluded from the class); `[^>]*` greedily consumes non-`>`
characters and must be followed by `>`.  Returns the captured URL and the
number of characters consumed after the `src="` literal, or `none`. -/
def tryAfterSrc (xs : List Char) : Option (List Char × Nat) :=
  let url := xs.takeWhile (fun c => c ≠ quotChar)
  if url.isEmpty then none
  else
    match xs.drop url.length with
    | [] => none
    | _ :: ys =>
        let tail := ys.takeWhile (fun c => c ≠ gtChar)
        match ys.drop tail.length with
        | [] => none
        | _ :: _ => some (url, url.length + 1 + tail.length + 1)

/-- Backtracking search for the `[^>]+` run length: Python's greedy `[^>]+`
tries the longest run first and backtracks on failure of the rest of the
pattern, so candidate lengths are tried from `k` down to `1`, each
requiring the literal `src="` right after the run and a matching tail. -/
def findSrcK (rest : List Char) : Nat → Option (Nat × List Char × Nat)
  | 0 => none
  | k + 1 =>
      if srcPat.isPrefixOf (rest.drop (k + 1)) then
        match tryAfterSrc (rest.drop (k + 1 + 5)) with
        | some (url, consumed) => some (k + 1, url, consumed)
        | none => findSrcK rest k
      else findSrcK rest k

/-- Attempt to match the regex `<img[^>]+src="([^"]+)"[^>]*>`
(renderer.py line 121) at the start of `cs`, with Python `re` semantics
(greedy quantifiers with backtracking).  On success returns
`(full match, captured src group, remainder after the match)`.  The
`[^>]+` run can consume at most the maximal non-`>` prefix after `<img`,
and `src="` contains no `>`, so every viable run length is at most that
prefix's length. -/
def matchImgAt (cs : List Char) :
    Option (List Char × List Char × List Char) :=
  if imgPat.isPrefixOf cs then
    match findSrcK (cs.drop 4)
        (((cs.drop 4).takeWhile (fun c => c ≠ gtChar)).length) with
    | some (k, url, consumed) =>
        some (cs.take (4 + k + 5 + consumed), url,
          cs.drop (4 + k + 5 + consumed))
    | none => none
  else none

/-- Python `re.finditer` scanning: try the pattern at each position from
the left; after a successful match, resume after its end (matches are
non-overlapping).  `fuel` bounds the scan; every match consumes at least
one character, so `fuel = length` is exact. -/
def findImgAux : Nat → List Char → List (List Char × List Char)
  | 0, _ => []
  | _ + 1, [] => []
  | fuel + 1, c :: cs =>
      match matchImgAt (c :: cs) with
      | some (m, url, rem) => (m, url) :: findImgAux fuel rem
      | none => findImgAux fuel cs

/-- All matches of the img-tag regex in `cs`, with their captured src
groups, in document order (renderer.py lines 124-128). -/
def findImgMatches (cs : List Char) : List (List Char × List Char) :=
  findImgAux cs.length cs

/-- renderer.py lines 110-156, `process_images_in_html`: collect the img
matches whose src starts with `https://`; when there are none return the
document unchanged; otherwise resolve the first `max_images = 3` of them
through `download` and fold whole-document replacements
`processed.replace(img_tag, img_tag.replace(src_url, local_uri))` over
them.  `download` models `download_and_cache_image`, which is total (its
own try/except returns the original URL on failure), so the dead inner
`except` branch of lines 146-148 never fires. -/
def process_images_in_html (download : List Char → List Char)
    (html : List Char) : List Char :=
  let imgUrls := (findImgMatches html).filter
    (fun m => httpsPre.isPrefixOf m.2)
  if imgUrls.isEmpty then html
  else
    let limited := imgUrls.take 3
    let localUris := limited.map (fun m => download m.2)
    (limited.zip localUris).foldl
      (fun acc mu => pyReplace acc mu.1.1 (pyReplace mu.1.1 mu.1.2 mu.2))
      html

/-- Whether `sub` occurs as a contiguous substring. -/
def occursIn (sub : List Char) : List Char → Bool
  | [] => sub.isEmpty
  | c :: cs => sub.isPrefixOf (c :: cs) || occursIn sub cs

/-- The img tag `<img src="https://u.png">`. -/
def imgTagU : List Char := "<img src=\"https://u.png\">".toList

/-- Four identical occurrences of `imgTagU`. -/
def htmlFourTags : List Char :=
  ("<img src=\"https://u.png\"> <img src=\"https://u.png\"> " ++
    "<img src=\"https://u.png\"> <img src=\"https://u.png\">").toList

/-- A stub resolver standing for `download_and_cache_image`. -/
def stubDownload : List Char → List Char :=
  fun _ => "file:///cache/x.png".toList

/-- Folding the per-tag replacement over `l.zip (l.map f)` is folding the
direct replacement over `l`. -/
theorem foldl_zip_map_replace (f : List Char × List Char → List Char)
    (l : List (List Char × List Char)) (init : List Char) :
    (l.zip (l.map f)).foldl
        (fun acc mu => pyReplace acc mu.1.1 (pyReplace mu.1.1 mu.1.2 mu.2))
        init
      = l.foldl
          (fun acc m => pyReplace acc m.1 (pyReplace m.1 m.2 (f m)))
          init := by
  induction l generalizing init with
  | nil => rfl
  | cons a t ih => simp only [List.map_cons, List.zip_cons_cons,
      List.foldl_cons, ih]

set_option maxRecDepth 20000 in
/-- Claim C6 is false on the code: `htmlFourTags` holds four identical
`https://` img references, one more than the cap of 3, yet after the pass
the original tag no longer occurs anywhere — the whole-string
`str.replace` rewrote every occurrence, including the fourth reference
beyond the cap, which the claim says must be left unmodified. -/
theorem image_cap_claim_false :
    (findImgMatches htmlFourTags).length = 4 ∧
    ((findImgMatches htmlFourTags).filter
        (fun m => httpsPre.isPrefixOf m.2)).length = 4 ∧
    (∀ m ∈ findImgMatches htmlFourTags, m.1 = imgTagU) ∧
    occursIn imgTagU (process_images_in_html stubDownload htmlFourTags)
      = false ∧
    process_images_in_html stubDownload htmlFourTags
      = ("<img src=\"file:///cache/x.png\"> " ++
          "<img src=\"file:///cache/x.png\"> " ++
          "<img src=\"file:///cache/x.png\"> " ++
          "<img src=\"file:///cache/x.png\">").toList := by decide

/-- Claim C6 (amended): the pass selects as resolution targets exactly the
matched image references whose captured src begins with `https://` — a
reference matched with any other scheme, `http://` included, is never
selected — and resolves at most the first 3 of them; the document is then
rewritten by folding, over the selected tags, a whole-document replacement
of every occurrence of each selected tag string (so occurrences beyond the
cap that are identical to a selected tag are rewritten as well); and for a
document with no `https://` image reference the output is byte-identical
to the input. -/
theorem process_images_amended (download : List Char → List Char)
    (html : List Char) :
    (((findImgMatches html).filter
        (fun m => httpsPre.isPrefixOf m.2)).take 3).length ≤ 3 ∧
    (∀ m ∈ ((findImgMatches html).filter
        (fun m => httpsPre.isPrefixOf m.2)).take 3,
      httpsPre.isPrefixOf m.2 = true) ∧
    ((∀ m ∈ findImgMatches html, httpsPre.isPrefixOf m.2 = false) →
      process_images_in_html download html = html) ∧
    ((∃ m ∈ findImgMatches html, httpsPre.isPrefixOf m.2 = true) →
      process_images_in_html download html
        = (((findImgMatches html).filter
              (fun m => httpsPre.isPrefixOf m.2)).take 3).foldl
            (fun acc m =>
              pyReplace acc m.1 (pyReplace m.1 m.2 (download m.2)))
            html) := by
  refine ⟨?_, ?_, ?_, ?_⟩
  · exact le_trans (List.length_take_le 3 _) (le_refl 3)
  · intro m hm
    have hm2 := List.mem_of_mem_take hm
    simpa using (List.mem_filter.mp hm2).2
  · intro hnone
    have hfil : (findImgMatches html).filter
        (fun m => httpsPre.isPrefixOf m.2) = [] := by
      rw [List.filter_eq_nil_iff]
      intro a ha
      simp [hnone a ha]
    simp [process_images_in_html, hfil]
  · intro hex
    obtain ⟨m, hm, hms⟩ := hex
    have hne : (findImgMatches html).filter
        (fun m => httpsPre.isPrefixOf m.2) ≠ [] := by
      intro hnil
      have : m ∈ (findImgMatches html).filter
          (fun m => httpsPre.isPrefixOf m.2) :=
        List.mem_filter.mpr ⟨hm, hms⟩
      rw [hnil] at this
      exact List.not_mem_nil m this
    unfold process_images_in_html
    rw [if_neg (by simpa [List.isEmpty_iff] using hne)]
    exact foldl_zip_map_replace (fun m => download m.2) _ html

set_option maxRecDepth 20000 in
/-- Witness for the amended C6: a document with no img reference passes
through byte-identical, and on `htmlFourTags` the output is the fold of
whole-string replacements over the (three) selected tags. -/
theorem process_images_amended_witness :
    process_images_in_html stubDownload "<p>hello</p>".toList
      = "<p>hello</p>".toList ∧
    process_images_in_html stubDownload htmlFourTags
      = (((findImgMatches htmlFourTags).filter
            (fun m => httpsPre.isPrefixOf m.2)).take 3).foldl
          (fun acc m =>
            pyReplace acc m.1 (pyReplace m.1 m.2 (stubDownload m.2)))
          htmlFourTags :=
  ⟨(process_images_amended stubDownload "<p>hello</p>".toList).2.2.1
      (by decide),
    (process_images_amended stubDownload htmlFourTags).2.2.2 (by decide)⟩

end Markdown2Img
